import Mathlib

/-!
Shallow embedding of the transaction/rollback engine in `src/transaction.py`.

The filesystem of target files is modelled as a map from paths to optional
file contents.  The staging (temp) directory is modelled by a counter of
live staging directories plus, per command, the content of the staged
backup copy (`_temp_copy`); `mkstemp` always yields a fresh file, so a
backup is fully described by whether the backup file currently exists and,
if so, the bytes it holds.  Python exceptions are modelled by `PyErr`
values threaded through results; `PyErr.generic` stands for any exception
that is none of the module's own three exception classes.
-/

/-- The exceptions that can cross the engine's boundaries:
`TransactionAbortError`, `TransactionError`, `CommandError`,
`shutil.SameFileError`, and a stand-in for any other (unexpected)
exception such as the OS errors `shutil.rmtree` can raise. -/
inductive PyErr
  | transactionAbort
  | transactionError
  | commandError
  | sameFile
  | generic
deriving DecidableEq, Repr

/-- The target filesystem: each path holds either a file's contents or nothing. -/
abbrev FS := String → Option String

/-- `os.path.isfile` on the modelled filesystem. -/
def FS.isfile (fs : FS) (p : String) : Bool := (fs p).isSome

/-- `open(p, 'w'); file.write(c)` : create or overwrite the file at `p`. -/
def FS.writeFile (fs : FS) (p : String) (c : String) : FS :=
  fun q => if q = p then some c else fs q

/-- `os.remove(p)` : delete the file at `p`. -/
def FS.removeFile (fs : FS) (p : String) : FS :=
  fun q => if q = p then none else fs q

/-- `shutil.copy(src, dst)` with `src` an existing file. -/
def FS.copyFile (fs : FS) (src dst : String) : FS :=
  fun q => if q = dst then fs src else fs q

/-- `shutil.move(src, dst)` with `src` an existing file: `dst` receives the
contents of `src` and `src` disappears (a move onto itself is a no-op). -/
def FS.moveFile (fs : FS) (src dst : String) : FS :=
  fun q => if q = dst then fs src else if q = src then none else fs q

/-- `CommandState` from the source. -/
inductive CommandState
  | INIT
  | PERFORMED
  | ROLLEDBACK
  | COMMITTED
deriving DecidableEq, Repr

/-- The lifecycle fields initialised by `CommandBase.__init__`:
`self._state` and `self._error_pre_preform`. -/
structure CmdSt where
  state : CommandState
  error_pre_preform : Bool
deriving DecidableEq, Repr

/-- The state-management part of `CommandBase.perform`: legal only from
`INIT`; an illegal call sets `_error_pre_preform` and raises `CommandError`. -/
def CommandBase.performBase (s : CmdSt) : CmdSt × Option PyErr :=
  if s.state = CommandState.INIT then
    ({ s with state := CommandState.PERFORMED }, none)
  else
    ({ s with error_pre_preform := true }, some PyErr.commandError)

/-- The state-management part of `CommandBase.rollback`.  Returns the updated
state, the method's return value (`True` tells subclasses to skip their own
rollback), and the raised exception if any.  Note that the source never
assigns `CommandState.ROLLEDBACK`, so the state is left unchanged. -/
def CommandBase.rollbackBase (s : CmdSt) : CmdSt × Bool × Option PyErr :=
  if s.error_pre_preform then (s, true, none)
  else if s.state = CommandState.PERFORMED then (s, false, none)
  else (s, false, some PyErr.commandError)

/-- The state-management part of `CommandBase.commit`: legal only from
`PERFORMED`; transitions to `COMMITTED`. -/
def CommandBase.commitBase (s : CmdSt) : CmdSt × Option PyErr :=
  if s.state = CommandState.PERFORMED then
    ({ s with state := CommandState.COMMITTED }, none)
  else (s, some PyErr.commandError)

/-- The concrete commands the claims concern: the four file commands plus
`CommandAbort`. -/
inductive Cmd
  | write (target contents : String)
  | delete (target : String)
  | copy (src dst : String)
  | move (src dst : String)
  | abortCmd
deriving DecidableEq, Repr

/-- Runtime fields of a `_CommandFileBase` instance: the shared lifecycle
state plus `_temp_copy`, modelled as the contents of the staged backup file
while that file exists (and `none` while it does not). -/
structure FileRt where
  base : CmdSt
  temp_copy : Option String
deriving DecidableEq, Repr

/-- A command instance.  File commands carry their runtime fields;
`CommandAbort.__init__` deliberately skips `CommandBase.__init__`, so an
abort command instance carries no lifecycle state at all (`rt = none`). -/
structure CmdInst where
  cmd : Cmd
  rt : Option FileRt
deriving DecidableEq, Repr

/-- Construction of a fresh command instance (`__init__`). -/
def Cmd.mkInst : Cmd → CmdInst
  | Cmd.abortCmd => { cmd := Cmd.abortCmd, rt := none }
  | c =>
    { cmd := c
      rt := some { base := { state := CommandState.INIT, error_pre_preform := false }
                   temp_copy := none } }

/-- `CommandFileCopy.__init__`: raises `shutil.SameFileError` when the two
paths are equal, before any transaction is involved. -/
def CommandFileCopy.construct (src dst : String) : Except PyErr CmdInst :=
  if src = dst then Except.error PyErr.sameFile
  else Except.ok (Cmd.mkInst (Cmd.copy src dst))

/-- Result of running one command method: the updated instance, the updated
target filesystem, the Python return value (`none` models `None`), and the
raised exception if any. -/
structure StepRes where
  inst : CmdInst
  fs : FS
  ret : Option Bool
  err : Option PyErr

/-- `_CommandFileBase.perform`: base state management, then a backup of the
target if it already exists.  Returns the updated runtime fields,
`will_overwrite`, and the raised exception if any. -/
def fileBasePerform (rt : FileRt) (fs : FS) (target : String) :
    FileRt × Bool × Option PyErr :=
  match CommandBase.performBase rt.base with
  | (b, some e) => ({ rt with base := b }, false, some e)
  | (b, none) =>
    if fs.isfile target then
      ({ base := b, temp_copy := fs target }, true, none)
    else
      ({ rt with base := b }, false, none)

/-- `_CommandFileBase.rollback`: base state management, then restore the
target from the backup when one exists.  Returns the updated runtime
fields, the updated filesystem, the method's return value, and the raised
exception if any. -/
def fileBaseRollback (rt : FileRt) (fs : FS) (target : String) :
    FileRt × FS × Bool × Option PyErr :=
  match CommandBase.rollbackBase rt.base with
  | (b, _, some e) => ({ rt with base := b }, fs, false, some e)
  | (b, true, none) => ({ rt with base := b }, fs, true, none)
  | (b, false, none) =>
    match rt.temp_copy with
    | none => ({ rt with base := b }, fs, false, none)
    | some c => ({ base := b, temp_copy := none }, fs.writeFile target c, true, none)

/-- `_CommandFileBase.commit`: base state management, then delete the backup
copy when one exists (the copy lives in the staging directory, so the target
filesystem is untouched). -/
def fileBaseCommit (rt : FileRt) : FileRt × Option PyErr :=
  match CommandBase.commitBase rt.base with
  | (b, some e) => ({ rt with base := b }, some e)
  | (b, none) =>
    match rt.temp_copy with
    | none => ({ rt with base := b }, none)
    | some _ => ({ base := b, temp_copy := none }, none)

/-- `perform(temp_dir)` of each concrete command.  `CommandAbort.perform`
raises `TransactionAbortError` unconditionally.  Copy and Move skip the
actual copy/move (returning `False`) when the source path is falsy or the
source file is missing. -/
def CmdInst.perform (i : CmdInst) (fs : FS) : StepRes :=
  match i.cmd, i.rt with
  | Cmd.abortCmd, _ =>
    { inst := i, fs := fs, ret := none, err := some PyErr.transactionAbort }
  | Cmd.write t c, some rt =>
    match fileBasePerform rt fs t with
    | (rt1, _, some e) =>
      { inst := { i with rt := some rt1 }, fs := fs, ret := none, err := some e }
    | (rt1, _, none) =>
      { inst := { i with rt := some rt1 }, fs := fs.writeFile t c, ret := none, err := none }
  | Cmd.delete t, some rt =>
    match fileBasePerform rt fs t with
    | (rt1, _, some e) =>
      { inst := { i with rt := some rt1 }, fs := fs, ret := none, err := some e }
    | (rt1, false, none) =>
      { inst := { i with rt := some rt1 }, fs := fs, ret := some false, err := none }
    | (rt1, true, none) =>
      { inst := { i with rt := some rt1 }, fs := fs.removeFile t, ret := none, err := none }
  | Cmd.copy s d, some rt =>
    match fileBasePerform rt fs d with
    | (rt1, _, some e) =>
      { inst := { i with rt := some rt1 }, fs := fs, ret := none, err := some e }
    | (rt1, _, none) =>
      if s = "" ∨ fs.isfile s = false then
        { inst := { i with rt := some rt1 }, fs := fs, ret := some false, err := none }
      else
        { inst := { i with rt := some rt1 }, fs := fs.copyFile s d, ret := none, err := none }
  | Cmd.move s d, some rt =>
    match fileBasePerform rt fs d with
    | (rt1, _, some e) =>
      { inst := { i with rt := some rt1 }, fs := fs, ret := none, err := some e }
    | (rt1, _, none) =>
      if s = "" ∨ fs.isfile s = false then
        { inst := { i with rt := some rt1 }, fs := fs, ret := some false, err := none }
      else
        { inst := { i with rt := some rt1 }, fs := fs.moveFile s d, ret := none, err := none }
  | _, none =>
    { inst := i, fs := fs, ret := none, err := some PyErr.generic }

/-- `rollback()` of each concrete command.  `CommandAbort.rollback` is
`pass`.  Write and Copy delete the file they created when the base restored
nothing; Move first moves the destination back to the source (when the
destination exists) and then runs the base restore. -/
def CmdInst.rollback (i : CmdInst) (fs : FS) : StepRes :=
  match i.cmd, i.rt with
  | Cmd.abortCmd, _ => { inst := i, fs := fs, ret := none, err := none }
  | Cmd.write t _, some rt =>
    match fileBaseRollback rt fs t with
    | (rt1, fs1, _, some e) =>
      { inst := { i with rt := some rt1 }, fs := fs1, ret := none, err := some e }
    | (rt1, fs1, true, none) =>
      { inst := { i with rt := some rt1 }, fs := fs1, ret := none, err := none }
    | (rt1, fs1, false, none) =>
      if fs1.isfile t then
        { inst := { i with rt := some rt1 }, fs := fs1.removeFile t, ret := none, err := none }
      else
        { inst := { i with rt := some rt1 }, fs := fs1, ret := none, err := none }
  | Cmd.delete t, some rt =>
    match fileBaseRollback rt fs t with
    | (rt1, fs1, _, some e) =>
      { inst := { i with rt := some rt1 }, fs := fs1, ret := none, err := some e }
    | (rt1, fs1, b, none) =>
      { inst := { i with rt := some rt1 }, fs := fs1, ret := some b, err := none }
  | Cmd.copy _ d, some rt =>
    match fileBaseRollback rt fs d with
    | (rt1, fs1, _, some e) =>
      { inst := { i with rt := some rt1 }, fs := fs1, ret := none, err := some e }
    | (rt1, fs1, true, none) =>
      { inst := { i with rt := some rt1 }, fs := fs1, ret := some true, err := none }
    | (rt1, fs1, false, none) =>
      if d = "" ∨ fs1.isfile d = false then
        { inst := { i with rt := some rt1 }, fs := fs1, ret := some false, err := none }
      else
        { inst := { i with rt := some rt1 }, fs := fs1.removeFile d, ret := none, err := none }
  | Cmd.move s d, some rt =>
    let fs1 := if d = "" ∨ fs.isfile d = false then fs else fs.moveFile d s
    match fileBaseRollback rt fs1 d with
    | (rt1, fs2, _, e) =>
      { inst := { i with rt := some rt1 }, fs := fs2, ret := none, err := e }
  | _, none =>
    { inst := i, fs := fs, ret := none, err := some PyErr.generic }

/-- `commit()` of each concrete command.  `CommandAbort.commit` is `pass`;
the file commands inherit `_CommandFileBase.commit` unchanged. -/
def CmdInst.commit (i : CmdInst) : CmdInst × Option PyErr :=
  match i.cmd, i.rt with
  | Cmd.abortCmd, _ => (i, none)
  | _, some rt =>
    match fileBaseCommit rt with
    | (rt1, e) => ({ i with rt := some rt1 }, e)
  | _, none => (i, some PyErr.generic)

/-- `TransactionState` from the source. -/
inductive TransactionState
  | NONE
  | INIT
  | RUNNING
  | DONE
  | ABORTED
deriving DecidableEq, Repr

/-- A `Transaction` instance: safety flag, current state, the append-only
command history, and whether `self.temp_dir` has been assigned a path.
(The diagnostic-only `name`/`verbose` fields only affect console output and
are omitted.) -/
structure Transaction where
  safe : Bool
  state : TransactionState
  commands : List CmdInst
  temp_dir : Bool
deriving DecidableEq, Repr

/-- `Transaction.__init__`. -/
def Transaction.init (safe : Bool) : Transaction :=
  { safe := safe, state := TransactionState.INIT, commands := [], temp_dir := false }

/-- `Transaction.__enter__`.  `dirs` counts the staging directories that
currently exist on disk; entering creates a fresh one.  Entry from `NONE`,
`DONE` or `ABORTED` raises `TransactionError`; entry from `RUNNING` only
prints a warning and proceeds. -/
def Transaction.enter (t : Transaction) (dirs : Nat) :
    Transaction × Nat × Option PyErr :=
  if t.state = TransactionState.NONE then (t, dirs, some PyErr.transactionError)
  else if t.state = TransactionState.DONE ∨ t.state = TransactionState.ABORTED then
    (t, dirs, some PyErr.transactionError)
  else
    ({ t with state := TransactionState.RUNNING, temp_dir := true }, dirs + 1, none)

/-- `Transaction.perform_command`: requires `RUNNING`, appends the fresh
instance to the history, then performs it (mutations made by a failing
`perform` stay visible through the history, as in the source where the list
holds the mutated object). -/
def Transaction.performCommand (t : Transaction) (fs : FS) (c : Cmd) :
    Transaction × FS × Option PyErr :=
  if t.state = TransactionState.RUNNING then
    let r := (Cmd.mkInst c).perform fs
    ({ t with commands := t.commands ++ [r.inst] }, r.fs, r.err)
  else (t, fs, some PyErr.transactionError)

/-- `Transaction.perform_commands`: perform in order, stopping at the first
raised exception. -/
def Transaction.performCommands :
    Transaction → FS → List Cmd → Transaction × FS × Option PyErr
  | t, fs, [] => (t, fs, none)
  | t, fs, c :: rest =>
    match Transaction.performCommand t fs c with
    | (t1, fs1, none) => Transaction.performCommands t1 fs1 rest
    | (t1, fs1, some e) => (t1, fs1, some e)

/-- Result of a rollback sweep: the processed instances (in processing
order), the final filesystem, the first raised exception if any, and the
trace of commands on which `rollback` was invoked, in invocation order. -/
structure SweepRes where
  insts : List CmdInst
  fs : FS
  err : Option PyErr
  trace : List Cmd

/-- The loop body of `Transaction.abort`: invoke `rollback` on each
instance in list order, stopping at the first raised exception (which
propagates, leaving the remaining instances untouched). -/
def sweepRollback : List CmdInst → FS → SweepRes
  | [], fs => { insts := [], fs := fs, err := none, trace := [] }
  | i :: rest, fs =>
    let r := CmdInst.rollback i fs
    match r.err with
    | some e => { insts := r.inst :: rest, fs := r.fs, err := some e, trace := [i.cmd] }
    | none =>
      let s := sweepRollback rest r.fs
      { insts := r.inst :: s.insts, fs := s.fs, err := s.err, trace := i.cmd :: s.trace }

/-- Result of `Transaction.abort`. -/
structure AbortRes where
  tx : Transaction
  fs : FS
  err : Option PyErr
  trace : List Cmd

/-- `Transaction.abort`: double abort raises `TransactionError`; otherwise
the state is set to `ABORTED` first and the history is rolled back in
reverse order. -/
def Transaction.abort (t : Transaction) (fs : FS) : AbortRes :=
  if t.state = TransactionState.ABORTED then
    { tx := t, fs := fs, err := some PyErr.transactionError, trace := [] }
  else
    let s := sweepRollback t.commands.reverse fs
    { tx := { t with state := TransactionState.ABORTED, commands := s.insts.reverse }
      fs := s.fs, err := s.err, trace := s.trace }

/-- Result of a commit sweep, with the trace of commands on which `commit`
was invoked, in invocation order. -/
structure CommitRes where
  insts : List CmdInst
  err : Option PyErr
  trace : List Cmd

/-- `Transaction._commit`: invoke `commit` on each instance in forward
order, stopping at the first raised exception. -/
def Transaction.commitAll : List CmdInst → CommitRes
  | [] => { insts := [], err := none, trace := [] }
  | i :: rest =>
    match CmdInst.commit i with
    | (i1, some e) => { insts := i1 :: rest, err := some e, trace := [i.cmd] }
    | (i1, none) =>
      let s := Transaction.commitAll rest
      { insts := i1 :: s.insts, err := s.err, trace := i.cmd :: s.trace }

/-- `Transaction._cleanup` (`shutil.rmtree(self.temp_dir)`): raises when
`self.temp_dir` was never assigned (`TypeError`) or no staging directory
exists any more (`FileNotFoundError`); otherwise removes one. -/
def Transaction.cleanupStaging (t : Transaction) (dirs : Nat) : Nat × Option PyErr :=
  if t.temp_dir = false then (dirs, some PyErr.generic)
  else if dirs = 0 then (dirs, some PyErr.generic)
  else (dirs - 1, none)

/-- How `__exit__` terminates: the scope's exception (if any) is swallowed
(`return True`), re-raised (`return False`), or replaced by a new exception
raised inside `__exit__` itself. -/
inductive ExitOutcome
  | swallow
  | reraise
  | newError (e : PyErr)
deriving DecidableEq, Repr

/-- Result of `Transaction.__exit__`. -/
structure ExitRes where
  tx : Transaction
  fs : FS
  dirs : Nat
  outcome : ExitOutcome

/-- `Transaction.__exit__`, with `exc` the exception active at scope exit
(`none` on a normal exit). -/
def Transaction.exitTx (t : Transaction) (fs : FS) (dirs : Nat)
    (exc : Option PyErr) : ExitRes :=
  match exc with
  | none =>
    if t.state = TransactionState.ABORTED then
      match Transaction.cleanupStaging t dirs with
      | (d1, none) => { tx := t, fs := fs, dirs := d1, outcome := ExitOutcome.swallow }
      | (d1, some e) => { tx := t, fs := fs, dirs := d1, outcome := ExitOutcome.newError e }
    else if t.state = TransactionState.NONE then
      { tx := t, fs := fs, dirs := dirs
        outcome := ExitOutcome.newError PyErr.transactionError }
    else if t.state = TransactionState.INIT then
      { tx := t, fs := fs, dirs := dirs
        outcome := ExitOutcome.newError PyErr.transactionError }
    else if t.state = TransactionState.DONE then
      { tx := t, fs := fs, dirs := dirs, outcome := ExitOutcome.swallow }
    else
      let s := Transaction.commitAll t.commands
      match s.err with
      | some e =>
        { tx := { t with commands := s.insts }, fs := fs, dirs := dirs
          outcome := ExitOutcome.newError e }
      | none =>
        let t1 := { t with commands := s.insts, state := TransactionState.DONE }
        match Transaction.cleanupStaging t1 dirs with
        | (d1, none) => { tx := t1, fs := fs, dirs := d1, outcome := ExitOutcome.swallow }
        | (d1, some e) => { tx := t1, fs := fs, dirs := d1, outcome := ExitOutcome.newError e }
  | some e =>
    if e = PyErr.transactionError then
      { tx := t, fs := fs, dirs := dirs, outcome := ExitOutcome.reraise }
    else if t.safe = false ∧ e ≠ PyErr.transactionAbort then
      { tx := t, fs := fs, dirs := dirs, outcome := ExitOutcome.reraise }
    else
      let a := Transaction.abort t fs
      match a.err with
      | some e1 => { tx := a.tx, fs := a.fs, dirs := dirs, outcome := ExitOutcome.newError e1 }
      | none =>
        match Transaction.cleanupStaging a.tx dirs with
        | (d1, none) => { tx := a.tx, fs := a.fs, dirs := d1, outcome := ExitOutcome.swallow }
        | (d1, some e1) => { tx := a.tx, fs := a.fs, dirs := d1, outcome := ExitOutcome.newError e1 }

/-- `Transaction.start`: `try: self.__enter__() except TransactionError:
return False finally: return True`.  A `return` in a `finally` clause
displaces both the `except` clause's `return False` and any in-flight
exception, so the method always returns `True`. -/
def Transaction.start (t : Transaction) (dirs : Nat) : Transaction × Nat × Bool :=
  let r := Transaction.enter t dirs
  (r.1, r.2.1, true)

/-- `Transaction.end`: `try: self.__exit__(None, None, None) except
TransactionError: return False finally: return True`.  As in `start`, the
`finally` clause's `return True` displaces everything else. -/
def Transaction.endTx (t : Transaction) (fs : FS) (dirs : Nat) : ExitRes × Bool :=
  (Transaction.exitTx t fs dirs none, true)

/-- A full `with Transaction(...)` scope: enter, perform the commands, and
exit with the first perform exception if one was raised, else with
`endExc` (the exception, if any, raised by the remaining body of the
scope). -/
def runScope (safe : Bool) (cmds : List Cmd) (endExc : Option PyErr) (fs : FS) :
    ExitRes :=
  let e1 := Transaction.enter (Transaction.init safe) 0
  let p := Transaction.performCommands e1.1 fs cmds
  match p.2.2 with
  | some e => Transaction.exitTx p.1 p.2.1 e1.2.1 (some e)
  | none => Transaction.exitTx p.1 p.2.1 e1.2.1 endExc

/-- The two ways a transaction scope can end in an abort: an unexpected
failure at the end of the scope, or an explicit `abort()` call followed by
a normal exit. -/
inductive AbortMode
  | failure
  | explicitAbort
deriving DecidableEq, Repr

/-- A safe-mode transaction scope that performs `cmds` and is then aborted:
either a perform raised (e.g. a `CommandAbort`), or — when all performs
succeeded — an unrelated failure occurs (`AbortMode.failure`) or the caller
invokes `abort()` and exits normally (`AbortMode.explicitAbort`). -/
def runAbortedTx (cmds : List Cmd) (m : AbortMode) (fs : FS) : ExitRes :=
  let e1 := Transaction.enter (Transaction.init true) 0
  let p := Transaction.performCommands e1.1 fs cmds
  match p.2.2 with
  | some e => Transaction.exitTx p.1 p.2.1 e1.2.1 (some e)
  | none =>
    match m with
    | AbortMode.failure => Transaction.exitTx p.1 p.2.1 e1.2.1 (some PyErr.generic)
    | AbortMode.explicitAbort =>
      let a := Transaction.abort p.1 p.2.1
      Transaction.exitTx a.tx a.fs e1.2.1 none

/-- The three command methods, for stating call-order properties. -/
inductive Phase
  | perform
  | rollback
  | commit
deriving DecidableEq, Repr

/-- Invoke one method on a command instance. -/
def CmdInst.call (p : Phase) (i : CmdInst) (fs : FS) :
    CmdInst × FS × Option PyErr :=
  match p with
  | Phase.perform =>
    let r := CmdInst.perform i fs
    (r.inst, r.fs, r.err)
  | Phase.rollback =>
    let r := CmdInst.rollback i fs
    (r.inst, r.fs, r.err)
  | Phase.commit =>
    let r := CmdInst.commit i
    (r.1, fs, r.2)

/-- Invoke a sequence of methods on one command instance, recording the
exception (if any) raised by each call. -/
def runCalls : List Phase → CmdInst → FS → CmdInst × FS × List (Option PyErr)
  | [], i, fs => (i, fs, [])
  | p :: rest, i, fs =>
    let r := CmdInst.call p i fs
    let s := runCalls rest r.1 r.2.1
    (s.1, s.2.1, r.2.2 :: s.2.2)

/-- Constructibility and OS-level wellformedness of a command: paths are
nonempty (Python cannot have a file at the empty path, and `open`/`shutil`
would fail on it) and `CommandFileCopy.__init__` rejects equal paths. -/
def Cmd.wfb : Cmd → Bool
  | Cmd.write t _ => t != ""
  | Cmd.delete t => t != ""
  | Cmd.copy s d => s != "" && d != "" && s != d
  | Cmd.move s d => s != "" && d != ""
  | Cmd.abortCmd => true

/-- All commands of a list are wellformed. -/
def cmdsWF (cmds : List Cmd) : Bool := cmds.all Cmd.wfb

/-- A Move is unproblematic at a given filesystem when its source exists or
its destination is absent. -/
def moveOKb : Cmd → FS → Bool
  | Cmd.move s d, fs => (fs s).isSome || (fs d).isNone
  | _, _ => true

/-- Every Move of the list is unproblematic at the filesystem at which its
`perform` runs. -/
def goodMoves : List Cmd → FS → Bool
  | [], _ => true
  | c :: rest, fs => moveOKb c fs && goodMoves rest ((Cmd.mkInst c).perform fs).fs

/-- `rollback` on this instance cannot raise: it is an abort command, or a
file command that is flagged failed-pre-perform or in `PERFORMED` state. -/
def rollbackNoThrow (i : CmdInst) : Bool :=
  match i.cmd, i.rt with
  | Cmd.abortCmd, _ => true
  | _, some rt =>
    rt.base.error_pre_preform || decide (rt.base.state = CommandState.PERFORMED)
  | _, none => false

/-- `commit` on this instance cannot raise: it is an abort command, or a
file command in `PERFORMED` state. -/
def commitNoThrow (i : CmdInst) : Bool :=
  match i.cmd, i.rt with
  | Cmd.abortCmd, _ => true
  | _, some rt => decide (rt.base.state = CommandState.PERFORMED)
  | _, none => false

/-- Instances on which neither sweep can raise. -/
def sweepSafe (i : CmdInst) : Bool := rollbackNoThrow i && commitNoThrow i

/-- The exact condition under which `__exit__` removes the staging
directory: a normal exit from `ABORTED` or `RUNNING`, or an exceptional
exit whose exception is not a `TransactionError`, is an abort signal or the
transaction is safe, and the transaction is not already `ABORTED`. -/
def cleansOn (t : Transaction) (exc : Option PyErr) : Bool :=
  match exc with
  | none =>
    decide (t.state = TransactionState.ABORTED) ||
      decide (t.state = TransactionState.RUNNING)
  | some e =>
    decide (e ≠ PyErr.transactionError) &&
      (decide (e = PyErr.transactionAbort) || t.safe) &&
      decide (t.state ≠ TransactionState.ABORTED)

/-! ### Helper lemmas -/

lemma rollbackBase_ok (s : CmdSt)
    (h : s.error_pre_preform = true ∨ s.state = CommandState.PERFORMED) :
    CommandBase.rollbackBase s = (s, s.error_pre_preform, none) := by
  unfold CommandBase.rollbackBase
  rcases h with h | h
  · simp [h]
  · by_cases he : s.error_pre_preform <;> simp [he, h]

lemma fileBaseRollback_err (rt : FileRt) (fs : FS) (t : String)
    (h : rt.base.error_pre_preform = true ∨ rt.base.state = CommandState.PERFORMED) :
    (fileBaseRollback rt fs t).2.2.2 = none := by
  unfold fileBaseRollback
  rw [rollbackBase_ok rt.base h]
  cases hf : rt.base.error_pre_preform
  · cases rt.temp_copy <;> simp
  · simp

lemma rollback_err_none (i : CmdInst) (fs : FS) (h : rollbackNoThrow i = true) :
    (CmdInst.rollback i fs).err = none := by
  obtain ⟨c, rt⟩ := i
  cases c with
  | abortCmd => cases rt <;> rfl
  | write t cts =>
    cases rt with
    | none => simp [rollbackNoThrow] at h
    | some rt =>
      have hb : rt.base.error_pre_preform = true ∨
          rt.base.state = CommandState.PERFORMED := by
        simpa [rollbackNoThrow] using h
      have he := fileBaseRollback_err rt fs t hb
      simp only [CmdInst.rollback]
      rcases hfb : fileBaseRollback rt fs t with ⟨rt1, fs1, b, e⟩
      rw [hfb] at he
      simp only at he
      subst he
      cases b
      · split <;> first | rfl | (split <;> rfl) | simp_all
      · rfl
  | delete t =>
    cases rt with
    | none => simp [rollbackNoThrow] at h
    | some rt =>
      have hb : rt.base.error_pre_preform = true ∨
          rt.base.state = CommandState.PERFORMED := by
        simpa [rollbackNoThrow] using h
      have he := fileBaseRollback_err rt fs t hb
      simp only [CmdInst.rollback]
      rcases hfb : fileBaseRollback rt fs t with ⟨rt1, fs1, b, e⟩
      rw [hfb] at he
      simp only at he
      subst he
      rfl
  | copy s d =>
    cases rt with
    | none => simp [rollbackNoThrow] at h
    | some rt =>
      have hb : rt.base.error_pre_preform = true ∨
          rt.base.state = CommandState.PERFORMED := by
        simpa [rollbackNoThrow] using h
      have he := fileBaseRollback_err rt fs d hb
      simp only [CmdInst.rollback]
      rcases hfb : fileBaseRollback rt fs d with ⟨rt1, fs1, b, e⟩
      rw [hfb] at he
      simp only at he
      subst he
      cases b
      · split <;> first | rfl | (split <;> rfl) | simp_all
      · rfl
  | move s d =>
    cases rt with
    | none => simp [rollbackNoThrow] at h
    | some rt =>
      have hb : rt.base.error_pre_preform = true ∨
          rt.base.state = CommandState.PERFORMED := by
        simpa [rollbackNoThrow] using h
      simp only [CmdInst.rollback]
      have he := fileBaseRollback_err rt
        (if d = "" ∨ fs.isfile d = false then fs else fs.moveFile d s) d hb
      rcases hfb : fileBaseRollback rt
          (if d = "" ∨ fs.isfile d = false then fs else fs.moveFile d s) d with
        ⟨rt1, fs1, b, e⟩
      rw [hfb] at he
      simp only at he
      subst he
      rfl

lemma commitBase_ok (s : CmdSt) (h : s.state = CommandState.PERFORMED) :
    CommandBase.commitBase s = ({ s with state := CommandState.COMMITTED }, none) := by
  unfold CommandBase.commitBase
  simp [h]

lemma commit_err_none (i : CmdInst) (h : commitNoThrow i = true) :
    (CmdInst.commit i).2 = none := by
  obtain ⟨c, rt⟩ := i
  by_cases hc : c = Cmd.abortCmd
  · subst hc; cases rt <;> rfl
  · cases rt with
    | none => cases c <;> first | exact absurd rfl hc | simp [commitNoThrow] at h
    | some rt =>
      have hb : rt.base.state = CommandState.PERFORMED := by
        cases c <;> first | exact absurd rfl hc | simpa [commitNoThrow] using h
      cases c <;>
        first
          | exact absurd rfl hc
          | (simp only [CmdInst.commit, fileBaseCommit, commitBase_ok rt.base hb]
             cases rt.temp_copy <;> rfl)

lemma sweepRollback_ok (l : List CmdInst) (fs : FS)
    (h : l.all rollbackNoThrow = true) :
    (sweepRollback l fs).err = none ∧
      (sweepRollback l fs).trace = l.map CmdInst.cmd := by
  induction l generalizing fs with
  | nil => exact ⟨rfl, rfl⟩
  | cons i rest ih =>
    rw [List.all_cons, Bool.and_eq_true] at h
    have he := rollback_err_none i fs h.1
    have hrest := ih (CmdInst.rollback i fs).fs h.2
    simp only [sweepRollback, he]
    simp [hrest.1, hrest.2]

lemma commitAll_ok (l : List CmdInst) (h : l.all commitNoThrow = true) :
    (Transaction.commitAll l).err = none ∧
      (Transaction.commitAll l).trace = l.map CmdInst.cmd := by
  induction l with
  | nil => exact ⟨rfl, rfl⟩
  | cons i rest ih =>
    rw [List.all_cons, Bool.and_eq_true] at h
    have he := commit_err_none i h.1
    rcases hci : CmdInst.commit i with ⟨i1, e⟩
    rw [hci] at he
    simp only at he
    subst he
    have hrest := ih h.2
    simp only [Transaction.commitAll, hci]
    simp [hrest.1, hrest.2]

lemma all_reverse_eq (l : List CmdInst) (p : CmdInst → Bool) :
    l.reverse.all p = l.all p := by
  simp [List.all_eq_true, List.mem_reverse]

/-! ### Claim theorems -/

/-- C3 (code bug): the command lifecycle is not terminal after rollback.
Starting from a fresh command state, `perform` succeeds and moves the state
to `PERFORMED`, a first `rollback` succeeds — but `CommandBase.rollback`
never assigns `CommandState.ROLLEDBACK`, so the state is still `PERFORMED`
and both a subsequent `commit` and a second `rollback` complete without any
lifecycle-order error, contradicting the claimed
INIT → PERFORMED → {COMMITTED | ROLLEDBACK} terminal lifecycle (and the
code's own error messages: "Commands may only be rolledback once", "must
not have been rolledback"). -/
theorem C3_rollback_not_terminal :
    (CommandBase.performBase
        { state := CommandState.INIT, error_pre_preform := false }).2 = none ∧
    (CommandBase.performBase
        { state := CommandState.INIT, error_pre_preform := false }).1.state =
      CommandState.PERFORMED ∧
    (CommandBase.rollbackBase (CommandBase.performBase
        { state := CommandState.INIT, error_pre_preform := false }).1).2.2 = none ∧
    (CommandBase.rollbackBase (CommandBase.performBase
        { state := CommandState.INIT, error_pre_preform := false }).1).1.state =
      CommandState.PERFORMED ∧
    (CommandBase.commitBase (CommandBase.rollbackBase (CommandBase.performBase
        { state := CommandState.INIT, error_pre_preform := false }).1).1).2 = none ∧
    (CommandBase.rollbackBase (CommandBase.rollbackBase (CommandBase.performBase
        { state := CommandState.INIT, error_pre_preform := false }).1).1).2.2 =
      none := by
  decide

/-- C4: `Transaction.abort` invokes `rollback` on the recorded commands in
exactly the reverse of submission order, and `Transaction._commit` invokes
`commit` on them in exactly the forward submission order (stated for
histories on which no sweep raises, as produced by a running transaction). -/
theorem C4_sweep_order (t : Transaction) (fs : FS)
    (h1 : t.state ≠ TransactionState.ABORTED)
    (h2 : t.commands.all rollbackNoThrow = true)
    (h3 : t.commands.all commitNoThrow = true) :
    (Transaction.abort t fs).trace = (t.commands.map CmdInst.cmd).reverse ∧
    (Transaction.commitAll t.commands).trace = t.commands.map CmdInst.cmd := by
  constructor
  · unfold Transaction.abort
    rw [if_neg h1]
    have h2r : t.commands.reverse.all rollbackNoThrow = true := by
      rw [all_reverse_eq]; exact h2
    have := (sweepRollback_ok t.commands.reverse fs h2r).2
    simp [this, List.map_reverse]
  · exact (commitAll_ok t.commands h3).2

/-- Witness transaction for C4: a running transaction that has performed two
file writes. -/
def sampleTx2 : Transaction :=
  (Transaction.performCommands (Transaction.enter (Transaction.init true) 0).1
    (fun _ => none) [Cmd.write "a" "1", Cmd.write "b" "2"]).1

theorem C4_sweep_order_witness :
    sampleTx2.state ≠ TransactionState.ABORTED ∧
    sampleTx2.commands.all rollbackNoThrow = true ∧
    sampleTx2.commands.all commitNoThrow = true ∧
    ((Transaction.abort sampleTx2 (fun _ => none)).trace =
        (sampleTx2.commands.map CmdInst.cmd).reverse ∧
      (Transaction.commitAll sampleTx2.commands).trace =
        sampleTx2.commands.map CmdInst.cmd) :=
  ⟨by decide, by decide, by decide,
    C4_sweep_order sampleTx2 (fun _ => none) (by decide) (by decide) (by decide)⟩

/-- C5: `rollback()` or `commit()` on a command still in its initial state
raises `CommandError`, except that a command flagged failed-pre-perform
(`_error_pre_preform`) has `rollback` return `True` ("nothing to undo")
silently instead of raising. -/
theorem C5_init_rollback_commit (s : CmdSt) (h : s.state = CommandState.INIT) :
    (CommandBase.commitBase s).2 = some PyErr.commandError ∧
    (s.error_pre_preform = false →
      (CommandBase.rollbackBase s).2.2 = some PyErr.commandError) ∧
    (s.error_pre_preform = true →
      CommandBase.rollbackBase s = (s, true, none)) := by
  refine ⟨?_, fun hf => ?_, fun hf => ?_⟩
  · unfold CommandBase.commitBase
    simp [h]
  · unfold CommandBase.rollbackBase
    simp [h, hf]
  · unfold CommandBase.rollbackBase
    simp [hf]

theorem C5_init_rollback_commit_witness :
    ({ state := CommandState.INIT, error_pre_preform := false } : CmdSt).state =
      CommandState.INIT ∧
    ((CommandBase.commitBase
        { state := CommandState.INIT, error_pre_preform := false }).2 =
      some PyErr.commandError ∧
    (({ state := CommandState.INIT, error_pre_preform := false } :
        CmdSt).error_pre_preform = false →
      (CommandBase.rollbackBase
          { state := CommandState.INIT, error_pre_preform := false }).2.2 =
        some PyErr.commandError) ∧
    (({ state := CommandState.INIT, error_pre_preform := false } :
        CmdSt).error_pre_preform = true →
      CommandBase.rollbackBase
          { state := CommandState.INIT, error_pre_preform := false } =
        ({ state := CommandState.INIT, error_pre_preform := false }, true, none))) :=
  ⟨rfl, C5_init_rollback_commit
    { state := CommandState.INIT, error_pre_preform := false } rfl⟩

/-- C8: constructing Copy(src, dst) raises `shutil.SameFileError` exactly
when the two paths are equal, before the command ever reaches a
transaction; with distinct paths construction yields the fresh instance. -/
theorem C8_copy_same_path (src dst : String) :
    (src = dst →
      CommandFileCopy.construct src dst = Except.error PyErr.sameFile) ∧
    (src ≠ dst →
      CommandFileCopy.construct src dst =
        Except.ok (Cmd.mkInst (Cmd.copy src dst))) := by
  unfold CommandFileCopy.construct
  constructor <;> intro h <;> simp [h]

theorem C8_copy_same_path_witness :
    CommandFileCopy.construct "a" "a" = Except.error PyErr.sameFile ∧
    CommandFileCopy.construct "a" "b" =
      Except.ok (Cmd.mkInst (Cmd.copy "a" "b")) :=
  ⟨(C8_copy_same_path "a" "a").1 rfl, (C8_copy_same_path "a" "b").2 (by decide)⟩

/-- C9: `Transaction.start` and `Transaction.end` always report `True`, for
every transaction state — the `finally: return True` displaces both the
`except` clause's `return False` and any in-flight exception — even though
the underlying `__enter__` raises `TransactionError` from `DONE` (third
conjunct) and `__exit__` raises `TransactionError` from `INIT` (fourth
conjunct). -/
theorem C9_start_end_always_true (t : Transaction) (fs : FS) (dirs : Nat) :
    (Transaction.start t dirs).2.2 = true ∧
    (Transaction.endTx t fs dirs).2 = true ∧
    (Transaction.enter
        { Transaction.init true with state := TransactionState.DONE } dirs).2.2 =
      some PyErr.transactionError ∧
    (Transaction.exitTx (Transaction.init true) fs dirs none).outcome =
      ExitOutcome.newError PyErr.transactionError := by
  refine ⟨rfl, rfl, ?_, rfl⟩
  unfold Transaction.enter
  simp

/-- The exception raised by each method of `CommandAbort`: `perform` raises
the abort signal, `rollback` and `commit` raise nothing. -/
def abortCallErr : Phase → Option PyErr
  | Phase.perform => some PyErr.transactionAbort
  | Phase.rollback => none
  | Phase.commit => none

/-- C10: `CommandAbort` bypasses the shared lifecycle state machine: its
constructor initialises no lifecycle state (`rt = none`), and for every
sequence of method calls in any order, each `perform` raises the abort
signal (`TransactionAbortError`), each `rollback`/`commit` is a no-op that
raises nothing — in particular no `CommandError` lifecycle error ever
occurs — and the instance and filesystem are left unchanged. -/
theorem C10_abort_bypasses_lifecycle (calls : List Phase) (fs : FS) :
    (Cmd.mkInst Cmd.abortCmd).rt = none ∧
    runCalls calls (Cmd.mkInst Cmd.abortCmd) fs =
      (Cmd.mkInst Cmd.abortCmd, fs, calls.map abortCallErr) := by
  refine ⟨rfl, ?_⟩
  induction calls with
  | nil => rfl
  | cons p rest ih =>
    simp only [Cmd.mkInst] at ih
    cases p <;>
      simp [runCalls, CmdInst.call, CmdInst.perform, CmdInst.rollback,
        CmdInst.commit, Cmd.mkInst, abortCallErr, ih]

lemma cleanupStaging_ok (t : Transaction) (dirs : Nat) (h1 : t.temp_dir = true)
    (h2 : 0 < dirs) : Transaction.cleanupStaging t dirs = (dirs - 1, none) := by
  unfold Transaction.cleanupStaging
  simp [h1, Nat.pos_iff_ne_zero.mp h2]

lemma sweepSafe_split (l : List CmdInst) (h : l.all sweepSafe = true) :
    l.all rollbackNoThrow = true ∧ l.all commitNoThrow = true := by
  simp only [List.all_eq_true, sweepSafe, Bool.and_eq_true] at h ⊢
  exact ⟨fun x hx => (h x hx).1, fun x hx => (h x hx).2⟩

lemma abort_ok (t : Transaction) (fs : FS)
    (h1 : t.state ≠ TransactionState.ABORTED)
    (h2 : t.commands.all rollbackNoThrow = true) :
    (Transaction.abort t fs).err = none ∧
    (Transaction.abort t fs).tx.state = TransactionState.ABORTED ∧
    (Transaction.abort t fs).tx.temp_dir = t.temp_dir ∧
    (Transaction.abort t fs).tx.safe = t.safe := by
  unfold Transaction.abort
  rw [if_neg h1]
  have hs := (sweepRollback_ok t.commands.reverse fs
    (by rw [all_reverse_eq]; exact h2)).1
  simp [hs]

/-- C2 (amended): `__exit__` removes the staging directory exactly on these
exit paths: a normal exit from `ABORTED` or `RUNNING`, or an exceptional
exit whose exception is not a `TransactionError` and is either the abort
signal or hits a safe transaction, provided the transaction is not already
`ABORTED`.  On the remaining exit paths — a propagating `TransactionError`,
an unexpected failure in unsafe mode, a usage-error exit from `NONE`/`INIT`,
a repeated exit from `DONE`, and the double-abort case — the staging
directory is not removed. -/
theorem C2_staging_cleanup_amended (t : Transaction) (fs : FS) (dirs : Nat)
    (exc : Option PyErr) (h1 : t.temp_dir = true) (h2 : 0 < dirs)
    (h3 : t.commands.all sweepSafe = true) :
    (Transaction.exitTx t fs dirs exc).dirs =
      if cleansOn t exc = true then dirs - 1 else dirs := by
  obtain ⟨hr, hcm⟩ := sweepSafe_split t.commands h3
  have hcs := cleanupStaging_ok t dirs h1 h2
  cases exc with
  | none =>
    cases hts : t.state with
    | NONE => simp [Transaction.exitTx, cleansOn, hts]
    | INIT => simp [Transaction.exitTx, cleansOn, hts]
    | DONE => simp [Transaction.exitTx, cleansOn, hts]
    | ABORTED => simp [Transaction.exitTx, cleansOn, hts, hcs]
    | RUNNING =>
      have hca := (commitAll_ok t.commands hcm).1
      have hcs1 := cleanupStaging_ok
        { t with commands := (Transaction.commitAll t.commands).insts,
                 state := TransactionState.DONE } dirs h1 h2
      simp [Transaction.exitTx, cleansOn, hts, hca, hcs1]
  | some e =>
    simp only [Transaction.exitTx]
    by_cases he : e = PyErr.transactionError
    · simp [he, cleansOn]
    · rw [if_neg he]
      by_cases hs : t.safe = false ∧ e ≠ PyErr.transactionAbort
      · rw [if_pos hs]
        simp [cleansOn, he, hs.1, hs.2]
      · rw [if_neg hs]
        push_neg at hs
        by_cases hA : t.state = TransactionState.ABORTED
        · simp [Transaction.abort, hA, cleansOn, he]
        · have ha := abort_ok t fs hA hr
          have hcs2 := cleanupStaging_ok (Transaction.abort t fs).tx dirs
            (by rw [ha.2.2.1]; exact h1) h2
          have hor : (decide (e = PyErr.transactionAbort) || t.safe) = true := by
            cases hsf : t.safe
            · simp [hs hsf]
            · simp
          simp [ha.1, hcs2, cleansOn, he, hA, hor]

theorem C2_staging_cleanup_amended_witness :
    ({ safe := true, state := TransactionState.RUNNING, commands := [],
        temp_dir := true } : Transaction).temp_dir = true ∧
    0 < 1 ∧
    (({ safe := true, state := TransactionState.RUNNING, commands := [],
        temp_dir := true } : Transaction).commands.all sweepSafe = true) ∧
    (Transaction.exitTx
        { safe := true, state := TransactionState.RUNNING, commands := [],
          temp_dir := true } (fun _ => none) 1 none).dirs =
      if cleansOn
          { safe := true, state := TransactionState.RUNNING, commands := [],
            temp_dir := true } none = true then 1 - 1 else 1 :=
  ⟨rfl, by decide, rfl,
    C2_staging_cleanup_amended
      { safe := true, state := TransactionState.RUNNING, commands := [],
        temp_dir := true } (fun _ => none) 1 none rfl (by decide) rfl⟩

/-- C2 counterexample: the claim that the staging directory is removed on
every exit path fails — in unsafe mode an unexpected failure during the
scope makes `__exit__` re-raise without any cleanup, leaving the staging
directory in place (one directory still exists after exit). -/
theorem C2_staging_cleanup_cex :
    (runScope false [Cmd.write "t" "x"] (some PyErr.generic)
        (fun _ => none)).dirs = 1 ∧
    (runScope false [Cmd.write "t" "x"] (some PyErr.generic)
        (fun _ => none)).outcome = ExitOutcome.reraise := by
  constructor <;> decide

/-- C6 (amended): when the abort signal reaches `__exit__` and the
transaction is not already `ABORTED`, the engine triggers `abort()` —
whatever the safety mode: the result equals the result of `abort()` (all
performed commands rolled back, state `ABORTED`), the staging directory is
cleaned up and the signal is swallowed.  A `TransactionError` is never
intercepted: it always re-raises unchanged in either mode.  (If the
transaction is already `ABORTED`, the `abort()` call raises a double-abort
`TransactionError` instead — see the counterexample.) -/
theorem C6_abort_signal_amended (t : Transaction) (fs : FS) (dirs : Nat)
    (b : Bool) (h1 : t.state ≠ TransactionState.ABORTED)
    (h2 : t.commands.all rollbackNoThrow = true)
    (h3 : t.temp_dir = true) (h4 : 0 < dirs) :
    ((Transaction.exitTx { t with safe := b } fs dirs
        (some PyErr.transactionAbort)).outcome = ExitOutcome.swallow ∧
      (Transaction.exitTx { t with safe := b } fs dirs
        (some PyErr.transactionAbort)).tx =
        (Transaction.abort { t with safe := b } fs).tx ∧
      (Transaction.exitTx { t with safe := b } fs dirs
        (some PyErr.transactionAbort)).tx.state = TransactionState.ABORTED ∧
      (Transaction.exitTx { t with safe := b } fs dirs
        (some PyErr.transactionAbort)).fs =
        (Transaction.abort { t with safe := b } fs).fs ∧
      (Transaction.exitTx { t with safe := b } fs dirs
        (some PyErr.transactionAbort)).dirs = dirs - 1) ∧
    ((Transaction.exitTx { t with safe := b } fs dirs
        (some PyErr.transactionError)).outcome = ExitOutcome.reraise ∧
      (Transaction.exitTx { t with safe := b } fs dirs
        (some PyErr.transactionError)).tx = { t with safe := b }) := by
  have h1b : ({ t with safe := b } : Transaction).state ≠
      TransactionState.ABORTED := h1
  have ha := abort_ok { t with safe := b } fs h1b h2
  have hcs := cleanupStaging_ok (Transaction.abort { t with safe := b } fs).tx
    dirs (by rw [ha.2.2.1]; exact h3) h4
  constructor
  · simp [Transaction.exitTx, ha.1, ha.2.1, hcs]
  · simp [Transaction.exitTx]

theorem C6_abort_signal_amended_witness :
    ({ safe := true, state := TransactionState.RUNNING, commands := [],
        temp_dir := true } : Transaction).state ≠ TransactionState.ABORTED ∧
    (({ safe := true, state := TransactionState.RUNNING, commands := [],
        temp_dir := true } : Transaction).commands.all rollbackNoThrow = true) ∧
    ({ safe := true, state := TransactionState.RUNNING, commands := [],
        temp_dir := true } : Transaction).temp_dir = true ∧
    0 < 1 ∧
    (((Transaction.exitTx
        { safe := false, state := TransactionState.RUNNING, commands := [],
          temp_dir := true } (fun _ => none) 1
        (some PyErr.transactionAbort)).outcome = ExitOutcome.swallow ∧
      (Transaction.exitTx
        { safe := false, state := TransactionState.RUNNING, commands := [],
          temp_dir := true } (fun _ => none) 1
        (some PyErr.transactionAbort)).tx =
        (Transaction.abort
          { safe := false, state := TransactionState.RUNNING, commands := [],
            temp_dir := true } (fun _ => none)).tx ∧
      (Transaction.exitTx
        { safe := false, state := TransactionState.RUNNING, commands := [],
          temp_dir := true } (fun _ => none) 1
        (some PyErr.transactionAbort)).tx.state = TransactionState.ABORTED ∧
      (Transaction.exitTx
        { safe := false, state := TransactionState.RUNNING, commands := [],
          temp_dir := true } (fun _ => none) 1
        (some PyErr.transactionAbort)).fs =
        (Transaction.abort
          { safe := false, state := TransactionState.RUNNING, commands := [],
            temp_dir := true } (fun _ => none)).fs ∧
      (Transaction.exitTx
        { safe := false, state := TransactionState.RUNNING, commands := [],
          temp_dir := true } (fun _ => none) 1
        (some PyErr.transactionAbort)).dirs = 1 - 1) ∧
    ((Transaction.exitTx
        { safe := false, state := TransactionState.RUNNING, commands := [],
          temp_dir := true } (fun _ => none) 1
        (some PyErr.transactionError)).outcome = ExitOutcome.reraise ∧
      (Transaction.exitTx
        { safe := false, state := TransactionState.RUNNING, commands := [],
          temp_dir := true } (fun _ => none) 1
        (some PyErr.transactionError)).tx =
        { safe := false, state := TransactionState.RUNNING, commands := [],
          temp_dir := true })) :=
  ⟨by decide, rfl, rfl, by decide,
    C6_abort_signal_amended
      { safe := true, state := TransactionState.RUNNING, commands := [],
        temp_dir := true } (fun _ => none) 1 false (by decide) rfl rfl
      (by decide)⟩

/-- C6 counterexample: the abort signal is not always swallowed.  If the
caller has already aborted the transaction inside the scope and the abort
signal is then raised, `__exit__` invokes `abort()` which raises a
double-abort `TransactionError` that propagates in place of the signal —
the exit outcome is a new `TransactionError`, not a swallowed signal. -/
theorem C6_abort_signal_cex :
    (Transaction.exitTx
        (Transaction.abort (Transaction.enter (Transaction.init true) 0).1
          (fun _ => none)).tx (fun _ => none) 1
        (some PyErr.transactionAbort)).outcome =
      ExitOutcome.newError PyErr.transactionError ∧
    (Transaction.abort (Transaction.enter (Transaction.init true) 0).1
        (fun _ => none)).tx.state = TransactionState.ABORTED := by
  constructor <;> decide

/-- A filesystem with one file: `B` containing `keep`. -/
def fsKeepB : FS := fun p => if p = "B" then some "keep" else none

/-- C7 counterexample: Move with a missing source is not rolled back as a
no-op when the destination exists.  With `A` missing and `B` containing
`keep`, `perform` correctly reports the no-op signal (`False`) without
raising and leaves the filesystem unchanged, but `rollback` then moves `B`
onto `A`: afterwards a file exists at the previously-missing source path
`A`. -/
theorem C7_missing_source_cex :
    ((Cmd.mkInst (Cmd.move "A" "B")).perform fsKeepB).err = none ∧
    ((Cmd.mkInst (Cmd.move "A" "B")).perform fsKeepB).ret = some false ∧
    ((Cmd.mkInst (Cmd.move "A" "B")).perform fsKeepB).fs "A" = none ∧
    (CmdInst.rollback ((Cmd.mkInst (Cmd.move "A" "B")).perform fsKeepB).inst
        ((Cmd.mkInst (Cmd.move "A" "B")).perform fsKeepB).fs).fs "A" =
      some "keep" ∧
    fsKeepB "A" = none := by
  decide

/-- C7 (amended): for a Copy or Move whose source file is missing at
perform time, `perform` reports the no-op signal (`False`) without raising,
leaves the command in `PERFORMED` state and leaves the filesystem unchanged
(the only effect is the backup-if-exists check on the destination).  A
subsequent `rollback` is a safe no-op for Copy, and for Move when the
destination is also absent; but when the destination exists, Move's
`rollback` moves the destination file onto the missing source path (then
restores the destination from its backup), so the filesystem afterwards has
the destination's content at the source path. -/
theorem C7_missing_source_amended (s d : String) (fs : FS)
    (h1 : fs s = none) (h2 : s ≠ "") (h3 : d ≠ "") :
    ((Cmd.mkInst (Cmd.copy s d)).perform fs).err = none ∧
    ((Cmd.mkInst (Cmd.copy s d)).perform fs).ret = some false ∧
    ((Cmd.mkInst (Cmd.copy s d)).perform fs).fs = fs ∧
    (((Cmd.mkInst (Cmd.copy s d)).perform fs).inst.rt.map
        (fun r => r.base.state)) = some CommandState.PERFORMED ∧
    (CmdInst.rollback ((Cmd.mkInst (Cmd.copy s d)).perform fs).inst fs).err =
      none ∧
    (CmdInst.rollback ((Cmd.mkInst (Cmd.copy s d)).perform fs).inst fs).fs =
      fs ∧
    ((Cmd.mkInst (Cmd.move s d)).perform fs).err = none ∧
    ((Cmd.mkInst (Cmd.move s d)).perform fs).ret = some false ∧
    ((Cmd.mkInst (Cmd.move s d)).perform fs).fs = fs ∧
    (((Cmd.mkInst (Cmd.move s d)).perform fs).inst.rt.map
        (fun r => r.base.state)) = some CommandState.PERFORMED ∧
    (CmdInst.rollback ((Cmd.mkInst (Cmd.move s d)).perform fs).inst fs).err =
      none ∧
    (fs d = none →
      (CmdInst.rollback ((Cmd.mkInst (Cmd.move s d)).perform fs).inst fs).fs =
        fs) ∧
    (∀ w, fs d = some w →
      (CmdInst.rollback ((Cmd.mkInst (Cmd.move s d)).perform fs).inst fs).fs =
        fun q => if q = s then some w else fs q) := by
  have hns : fs.isfile s = false := by simp [FS.isfile, h1]
  cases hd : fs d with
  | none =>
    have hnd : fs.isfile d = false := by simp [FS.isfile, hd]
    refine ⟨?_, ?_, ?_, ?_, ?_, ?_, ?_, ?_, ?_, ?_, ?_, fun _ => ?_,
      fun w hw => ?_⟩ <;>
      simp_all [Cmd.mkInst, CmdInst.perform, CmdInst.rollback, fileBasePerform,
        fileBaseRollback, CommandBase.performBase, CommandBase.rollbackBase,
        hns, hnd, h2, h3]
  | some w0 =>
    have hyd : fs.isfile d = true := by simp [FS.isfile, hd]
    have hsd : s ≠ d := by
      intro hcontra
      rw [hcontra, hd] at h1
      exact Option.noConfusion h1
    have hwd : fs.writeFile d w0 = fs := by
      funext q
      by_cases hq : q = d
      · simp [FS.writeFile, hq, hd]
      · simp [FS.writeFile, hq]
    have hmv : (fs.moveFile d s).writeFile d w0 =
        fun q => if q = s then some w0 else fs q := by
      funext q
      by_cases hq : q = d
      · simp [FS.writeFile, FS.moveFile, hq, hd, Ne.symm hsd]
      · by_cases hqs : q = s
        · simp [FS.writeFile, FS.moveFile, hq, hqs, hd]
        · simp [FS.writeFile, FS.moveFile, hq, hqs]
    refine ⟨?_, ?_, ?_, ?_, ?_, ?_, ?_, ?_, ?_, ?_, ?_, fun hcontra => ?_,
      fun w hw => ?_⟩
    · simp [Cmd.mkInst, CmdInst.perform, fileBasePerform,
        CommandBase.performBase, hns, hyd, hd]
    · simp [Cmd.mkInst, CmdInst.perform, fileBasePerform,
        CommandBase.performBase, hns, hyd, hd]
    · simp [Cmd.mkInst, CmdInst.perform, fileBasePerform,
        CommandBase.performBase, hns, hyd, hd]
    · simp [Cmd.mkInst, CmdInst.perform, fileBasePerform,
        CommandBase.performBase, hns, hyd, hd]
    · simp [Cmd.mkInst, CmdInst.perform, CmdInst.rollback, fileBasePerform,
        fileBaseRollback, CommandBase.performBase, CommandBase.rollbackBase,
        hns, hyd, hd]
    · simp [Cmd.mkInst, CmdInst.perform, CmdInst.rollback, fileBasePerform,
        fileBaseRollback, CommandBase.performBase, CommandBase.rollbackBase,
        hns, hyd, hd, hwd]
    · simp [Cmd.mkInst, CmdInst.perform, fileBasePerform,
        CommandBase.performBase, hns, hyd, hd]
    · simp [Cmd.mkInst, CmdInst.perform, fileBasePerform,
        CommandBase.performBase, hns, hyd, hd]
    · simp [Cmd.mkInst, CmdInst.perform, fileBasePerform,
        CommandBase.performBase, hns, hyd, hd]
    · simp [Cmd.mkInst, CmdInst.perform, fileBasePerform,
        CommandBase.performBase, hns, hyd, hd]
    · simp [Cmd.mkInst, CmdInst.perform, CmdInst.rollback, fileBasePerform,
        fileBaseRollback, CommandBase.performBase, CommandBase.rollbackBase,
        hns, hyd, hd, h3]
    · exact absurd hcontra (by simp)
    · injection hw with hw
      subst hw
      simp [Cmd.mkInst, CmdInst.perform, CmdInst.rollback, fileBasePerform,
        fileBaseRollback, CommandBase.performBase, CommandBase.rollbackBase,
        hns, hyd, hd, h3, hmv]

theorem C7_missing_source_amended_witness :
    fsKeepB "A" = none ∧ "A" ≠ "" ∧ "B" ≠ "" ∧
    (CmdInst.rollback ((Cmd.mkInst (Cmd.move "A" "B")).perform fsKeepB).inst
        fsKeepB).fs =
      fun q => if q = "A" then some "keep" else fsKeepB q :=
  ⟨rfl, by decide, by decide,
    (C7_missing_source_amended "A" "B" fsKeepB rfl (by decide)
      (by decide)).2.2.2.2.2.2.2.2.2.2.2.2 "keep" rfl⟩

lemma perform_rollback_restores (c : Cmd) (fs : FS) (hc : c ≠ Cmd.abortCmd)
    (hwf : Cmd.wfb c = true) (hm : moveOKb c fs = true) :
    ((Cmd.mkInst c).perform fs).err = none ∧
    (CmdInst.rollback ((Cmd.mkInst c).perform fs).inst
        ((Cmd.mkInst c).perform fs).fs).err = none ∧
    (CmdInst.rollback ((Cmd.mkInst c).perform fs).inst
        ((Cmd.mkInst c).perform fs).fs).fs = fs := by
  cases c with
  | abortCmd => exact absurd rfl hc
  | write t cts =>
    cases ht : fs t with
    | some w =>
      have hif : fs.isfile t = true := by simp [FS.isfile, ht]
      have hww : (fs.writeFile t cts).writeFile t w = fs := by
        funext q
        by_cases hq : q = t
        · simp [FS.writeFile, hq, ht]
        · simp [FS.writeFile, hq]
      refine ⟨?_, ?_, ?_⟩ <;>
        simp [Cmd.mkInst, CmdInst.perform, CmdInst.rollback, fileBasePerform,
          fileBaseRollback, CommandBase.performBase, CommandBase.rollbackBase,
          hif, ht, hww]
    | none =>
      have hif : fs.isfile t = false := by simp [FS.isfile, ht]
      have hif2 : (fs.writeFile t cts).isfile t = true := by
        simp [FS.isfile, FS.writeFile]
      have hrw : (fs.writeFile t cts).removeFile t = fs := by
        funext q
        by_cases hq : q = t
        · simp [FS.writeFile, FS.removeFile, hq, ht]
        · simp [FS.writeFile, FS.removeFile, hq]
      refine ⟨?_, ?_, ?_⟩ <;>
        simp [Cmd.mkInst, CmdInst.perform, CmdInst.rollback, fileBasePerform,
          fileBaseRollback, CommandBase.performBase, CommandBase.rollbackBase,
          hif, ht, hif2, hrw]
  | delete t =>
    cases ht : fs t with
    | some w =>
      have hif : fs.isfile t = true := by simp [FS.isfile, ht]
      have hdw : (fs.removeFile t).writeFile t w = fs := by
        funext q
        by_cases hq : q = t
        · simp [FS.writeFile, FS.removeFile, hq, ht]
        · simp [FS.writeFile, FS.removeFile, hq]
      refine ⟨?_, ?_, ?_⟩ <;>
        simp [Cmd.mkInst, CmdInst.perform, CmdInst.rollback, fileBasePerform,
          fileBaseRollback, CommandBase.performBase, CommandBase.rollbackBase,
          hif, ht, hdw]
    | none =>
      have hif : fs.isfile t = false := by simp [FS.isfile, ht]
      refine ⟨?_, ?_, ?_⟩ <;>
        simp [Cmd.mkInst, CmdInst.perform, CmdInst.rollback, fileBasePerform,
          fileBaseRollback, CommandBase.performBase, CommandBase.rollbackBase,
          hif, ht]
  | copy s d =>
    have hw : (s ≠ "" ∧ d ≠ "") ∧ s ≠ d := by
      simpa [Cmd.wfb, Bool.and_eq_true, bne_iff_ne] using hwf
    cases hsrc : fs s with
    | some v =>
      have hifs : fs.isfile s = true := by simp [FS.isfile, hsrc]
      cases hdst : fs d with
      | some w =>
        have hifd : fs.isfile d = true := by simp [FS.isfile, hdst]
        have hcw : (fs.copyFile s d).writeFile d w = fs := by
          funext q
          by_cases hq : q = d
          · simp [FS.copyFile, FS.writeFile, hq, hdst]
          · simp [FS.copyFile, FS.writeFile, hq]
        refine ⟨?_, ?_, ?_⟩ <;>
          simp [Cmd.mkInst, CmdInst.perform, CmdInst.rollback, fileBasePerform,
            fileBaseRollback, CommandBase.performBase, CommandBase.rollbackBase,
            hifs, hifd, hsrc, hdst, hw.1.1, hw.1.2, hcw]
      | none =>
        have hifd : fs.isfile d = false := by simp [FS.isfile, hdst]
        have hifd2 : (fs.copyFile s d).isfile d = true := by
          simp [FS.isfile, FS.copyFile, hsrc]
        have hcr : (fs.copyFile s d).removeFile d = fs := by
          funext q
          by_cases hq : q = d
          · simp [FS.copyFile, FS.removeFile, hq, hdst]
          · simp [FS.copyFile, FS.removeFile, hq]
        refine ⟨?_, ?_, ?_⟩ <;>
          simp [Cmd.mkInst, CmdInst.perform, CmdInst.rollback, fileBasePerform,
            fileBaseRollback, CommandBase.performBase, CommandBase.rollbackBase,
            hifs, hifd, hifd2, hsrc, hdst, hw.1.1, hw.1.2, hcr]
    | none =>
      have hifs : fs.isfile s = false := by simp [FS.isfile, hsrc]
      cases hdst : fs d with
      | some w =>
        have hifd : fs.isfile d = true := by simp [FS.isfile, hdst]
        have hdw : fs.writeFile d w = fs := by
          funext q
          by_cases hq : q = d
          · simp [FS.writeFile, hq, hdst]
          · simp [FS.writeFile, hq]
        refine ⟨?_, ?_, ?_⟩ <;>
          simp [Cmd.mkInst, CmdInst.perform, CmdInst.rollback, fileBasePerform,
            fileBaseRollback, CommandBase.performBase, CommandBase.rollbackBase,
            hifs, hifd, hsrc, hdst, hw.1.1, hw.1.2, hdw]
      | none =>
        have hifd : fs.isfile d = false := by simp [FS.isfile, hdst]
        refine ⟨?_, ?_, ?_⟩ <;>
          simp [Cmd.mkInst, CmdInst.perform, CmdInst.rollback, fileBasePerform,
            fileBaseRollback, CommandBase.performBase, CommandBase.rollbackBase,
            hifs, hifd, hsrc, hdst, hw.1.1, hw.1.2]
  | move s d =>
    have hw : s ≠ "" ∧ d ≠ "" := by
      simpa [Cmd.wfb, Bool.and_eq_true, bne_iff_ne] using hwf
    cases hsrc : fs s with
    | some v =>
      have hifs : fs.isfile s = true := by simp [FS.isfile, hsrc]
      have hifmd : (fs.moveFile s d).isfile d = true := by
        simp [FS.isfile, FS.moveFile, hsrc]
      cases hdst : fs d with
      | some w =>
        have hifd : fs.isfile d = true := by simp [FS.isfile, hdst]
        have hmw : ((fs.moveFile s d).moveFile d s).writeFile d w = fs := by
          funext q
          by_cases hq : q = d
          · simp [FS.moveFile, FS.writeFile, hq, hdst]
          · by_cases hqs : q = s
            · subst hqs
              simp [FS.moveFile, FS.writeFile, hq, hsrc]
            · simp [FS.moveFile, FS.writeFile, hq, hqs]
        refine ⟨?_, ?_, ?_⟩ <;>
          simp [Cmd.mkInst, CmdInst.perform, CmdInst.rollback, fileBasePerform,
            fileBaseRollback, CommandBase.performBase, CommandBase.rollbackBase,
            hifs, hifd, hifmd, hsrc, hdst, hw.1, hw.2, hmw]
      | none =>
        have hifd : fs.isfile d = false := by simp [FS.isfile, hdst]
        have hsd : s ≠ d := by
          intro hcontra
          rw [hcontra, hdst] at hsrc
          exact Option.noConfusion hsrc
        have hmm : (fs.moveFile s d).moveFile d s = fs := by
          funext q
          by_cases hq : q = s
          · simp [FS.moveFile, hq, hsrc, Ne.symm hsd]
          · by_cases hqd : q = d
            · simp [FS.moveFile, hq, hqd, hdst, hsd, Ne.symm hsd]
            · simp [FS.moveFile, hq, hqd]
        refine ⟨?_, ?_, ?_⟩ <;>
          simp [Cmd.mkInst, CmdInst.perform, CmdInst.rollback, fileBasePerform,
            fileBaseRollback, CommandBase.performBase, CommandBase.rollbackBase,
            hifs, hifd, hifmd, hsrc, hdst, hw.1, hw.2, hmm]
    | none =>
      have hifs : fs.isfile s = false := by simp [FS.isfile, hsrc]
      have hdst : fs d = none := by
        rw [moveOKb, hsrc] at hm
        simpa [Option.isNone_iff_eq_none] using hm
      have hifd : fs.isfile d = false := by simp [FS.isfile, hdst]
      refine ⟨?_, ?_, ?_⟩ <;>
        simp [Cmd.mkInst, CmdInst.perform, CmdInst.rollback, fileBasePerform,
          fileBaseRollback, CommandBase.performBase, CommandBase.rollbackBase,
          hifs, hifd, hsrc, hdst, hw.1, hw.2]

/-- The command-list effect of `perform_commands` starting from fresh
instances: the history of instances produced, the resulting filesystem, and
the first exception raised, stopping at it. -/
def performList : List Cmd → FS → List CmdInst × FS × Option PyErr
  | [], fs => ([], fs, none)
  | c :: rest, fs =>
    let r := (Cmd.mkInst c).perform fs
    match r.err with
    | some e => ([r.inst], r.fs, some e)
    | none =>
      let s := performList rest r.fs
      (r.inst :: s.1, s.2.1, s.2.2)

lemma performCommands_eq (cmds : List Cmd) :
    ∀ (t : Transaction) (fs : FS), t.state = TransactionState.RUNNING →
      Transaction.performCommands t fs cmds =
        ({ t with commands := t.commands ++ (performList cmds fs).1 },
          (performList cmds fs).2.1, (performList cmds fs).2.2) := by
  induction cmds with
  | nil =>
    intro t fs h
    simp [Transaction.performCommands, performList]
  | cons c rest ih =>
    intro t fs h
    have hpc : Transaction.performCommand t fs c =
        ({ t with commands :=
            t.commands ++ [((Cmd.mkInst c).perform fs).inst] },
          ((Cmd.mkInst c).perform fs).fs, ((Cmd.mkInst c).perform fs).err) := by
      unfold Transaction.performCommand
      rw [if_pos h]
    simp only [Transaction.performCommands, hpc]
    rcases hre : ((Cmd.mkInst c).perform fs).err with _ | e
    · show Transaction.performCommands
          { t with commands := t.commands ++ [((Cmd.mkInst c).perform fs).inst] }
          ((Cmd.mkInst c).perform fs).fs rest =
        ({ t with commands := t.commands ++ (performList (c :: rest) fs).1 },
          (performList (c :: rest) fs).2.1, (performList (c :: rest) fs).2.2)
      rw [ih { t with commands :=
          t.commands ++ [((Cmd.mkInst c).perform fs).inst] }
        ((Cmd.mkInst c).perform fs).fs h]
      simp [performList, hre, List.append_assoc]
    · show ({ t with commands :=
            t.commands ++ [((Cmd.mkInst c).perform fs).inst] },
          ((Cmd.mkInst c).perform fs).fs, some e) =
        ({ t with commands := t.commands ++ (performList (c :: rest) fs).1 },
          (performList (c :: rest) fs).2.1, (performList (c :: rest) fs).2.2)
      simp [performList, hre]

lemma sweepRollback_append (l1 l2 : List CmdInst) :
    ∀ fs : FS, (sweepRollback l1 fs).err = none →
      (sweepRollback (l1 ++ l2) fs).err =
        (sweepRollback l2 (sweepRollback l1 fs).fs).err ∧
      (sweepRollback (l1 ++ l2) fs).fs =
        (sweepRollback l2 (sweepRollback l1 fs).fs).fs := by
  induction l1 with
  | nil => intro fs _; exact ⟨rfl, rfl⟩
  | cons i rest ih =>
    intro fs h
    rcases hre : (CmdInst.rollback i fs).err with _ | e
    · simp only [sweepRollback, hre] at h ⊢
      exact ih (CmdInst.rollback i fs).fs h
    · simp only [sweepRollback, hre] at h
      exact Option.noConfusion h

lemma performList_sweep_restores (cmds : List Cmd) :
    ∀ fs : FS, cmdsWF cmds = true → goodMoves cmds fs = true →
      (sweepRollback (performList cmds fs).1.reverse
          (performList cmds fs).2.1).err = none ∧
      (sweepRollback (performList cmds fs).1.reverse
          (performList cmds fs).2.1).fs = fs ∧
      ((performList cmds fs).2.2 = none ∨
        (performList cmds fs).2.2 = some PyErr.transactionAbort) := by
  induction cmds with
  | nil => intro fs _ _; exact ⟨rfl, rfl, Or.inl rfl⟩
  | cons c rest ih =>
    intro fs hwf hm
    rw [cmdsWF, List.all_cons, Bool.and_eq_true] at hwf
    rw [goodMoves, Bool.and_eq_true] at hm
    by_cases hc : c = Cmd.abortCmd
    · subst hc
      refine ⟨?_, ?_, Or.inr ?_⟩ <;>
        simp [performList, Cmd.mkInst, CmdInst.perform, sweepRollback,
          CmdInst.rollback]
    · obtain ⟨he, hre, hrfs⟩ :=
        perform_rollback_restores c fs hc hwf.1 hm.1
      have hrec := ih ((Cmd.mkInst c).perform fs).fs hwf.2 hm.2
      have hplist : performList (c :: rest) fs =
          (((Cmd.mkInst c).perform fs).inst ::
              (performList rest ((Cmd.mkInst c).perform fs).fs).1,
            (performList rest ((Cmd.mkInst c).perform fs).fs).2.1,
            (performList rest ((Cmd.mkInst c).perform fs).fs).2.2) := by
        simp only [performList]
        rw [he]
      rw [hplist]
      simp only [List.reverse_cons]
      obtain ⟨hap1, hap2⟩ := sweepRollback_append
        (performList rest ((Cmd.mkInst c).perform fs).fs).1.reverse
        [((Cmd.mkInst c).perform fs).inst]
        (performList rest ((Cmd.mkInst c).perform fs).fs).2.1 hrec.1
      refine ⟨?_, ?_, hrec.2.2⟩
      · rw [hap1, hrec.2.1]
        simp [sweepRollback, hre]
      · rw [hap2, hrec.2.1]
        simp [sweepRollback, hre, hrfs]

lemma exitTx_failure_aborts (t : Transaction) (fs : FS) (e : PyErr)
    (he1 : e ≠ PyErr.transactionError)
    (he2 : e = PyErr.transactionAbort ∨ t.safe = true)
    (hst : t.state = TransactionState.RUNNING)
    (htd : t.temp_dir = true)
    (hsw : (sweepRollback t.commands.reverse fs).err = none)
    (fs0 : FS) (hfs : (sweepRollback t.commands.reverse fs).fs = fs0) :
    (Transaction.exitTx t fs 1 (some e)).fs = fs0 ∧
    (Transaction.exitTx t fs 1 (some e)).tx.state = TransactionState.ABORTED ∧
    (Transaction.exitTx t fs 1 (some e)).dirs = 0 ∧
    (Transaction.exitTx t fs 1 (some e)).outcome = ExitOutcome.swallow := by
  have hcond : ¬(t.safe = false ∧ e ≠ PyErr.transactionAbort) := by
    rcases he2 with h | h <;> simp [h]
  have hna : t.state ≠ TransactionState.ABORTED := by
    rw [hst]
    exact fun hcontra => TransactionState.noConfusion hcontra
  refine ⟨?_, ?_, ?_, ?_⟩ <;>
    simp [Transaction.exitTx, he1, hcond, Transaction.abort, hna, hsw,
      Transaction.cleanupStaging, htd, hfs]

lemma exitTx_aborted_cleanup (t : Transaction) (fs : FS)
    (hst : t.state = TransactionState.ABORTED) (htd : t.temp_dir = true) :
    (Transaction.exitTx t fs 1 none).fs = fs ∧
    (Transaction.exitTx t fs 1 none).tx.state = TransactionState.ABORTED ∧
    (Transaction.exitTx t fs 1 none).dirs = 0 ∧
    (Transaction.exitTx t fs 1 none).outcome = ExitOutcome.swallow := by
  refine ⟨?_, ?_, ?_, ?_⟩ <;>
    simp [Transaction.exitTx, hst, Transaction.cleanupStaging, htd]

lemma abort_running (t : Transaction) (fs fs0 : FS)
    (hst : t.state = TransactionState.RUNNING)
    (hfs : (sweepRollback t.commands.reverse fs).fs = fs0) :
    (Transaction.abort t fs).fs = fs0 ∧
    (Transaction.abort t fs).tx.state = TransactionState.ABORTED ∧
    (Transaction.abort t fs).tx.temp_dir = t.temp_dir := by
  have hna : t.state ≠ TransactionState.ABORTED := by
    rw [hst]
    exact fun hcontra => TransactionState.noConfusion hcontra
  refine ⟨?_, ?_, ?_⟩ <;> simp [Transaction.abort, hna, hfs]

/-- C1 (amended): every command sequence performed inside a safe-mode
transaction that is then aborted — by an unexpected failure, by a
`CommandAbort` raised mid-sequence, or by an explicit `abort()` call —
leaves every target file byte-for-byte as it was before the transaction
began, ends with the transaction in `ABORTED` state, removes the staging
directory and swallows the failure, PROVIDED every Move command's source
file exists (or its destination is absent) at its perform time
(`goodMoves`); a Move with a missing source and an existing destination
breaks the restoration (see the counterexample) by creating a file at the
source path during rollback.  `cmdsWF` restricts to constructible commands:
nonempty paths, and Copy's constructor-enforced distinct paths. -/
theorem C1_abort_restores_amended (cmds : List Cmd) (m : AbortMode) (fs : FS)
    (h1 : cmdsWF cmds = true) (h2 : goodMoves cmds fs = true) :
    (runAbortedTx cmds m fs).fs = fs ∧
    (runAbortedTx cmds m fs).tx.state = TransactionState.ABORTED ∧
    (runAbortedTx cmds m fs).dirs = 0 ∧
    (runAbortedTx cmds m fs).outcome = ExitOutcome.swallow := by
  obtain ⟨hsw_err, hsw_fs, hpe⟩ := performList_sweep_restores cmds fs h1 h2
  have hent : Transaction.enter (Transaction.init true) 0 =
      ({ safe := true, state := TransactionState.RUNNING, commands := [],
         temp_dir := true }, 1, none) := by decide
  have hpc := performCommands_eq cmds
    { safe := true, state := TransactionState.RUNNING, commands := [],
      temp_dir := true } fs rfl
  simp only [runAbortedTx, hent, hpc, List.nil_append]
  rcases hpe with hpe | hpe
  · rw [hpe]
    cases m with
    | failure =>
      exact exitTx_failure_aborts
        { safe := true, state := TransactionState.RUNNING,
          commands := (performList cmds fs).1, temp_dir := true }
        (performList cmds fs).2.1 PyErr.generic (by decide) (Or.inr rfl)
        rfl rfl hsw_err fs hsw_fs
    | explicitAbort =>
      obtain ⟨hb1, hb2, hb3⟩ := abort_running
        { safe := true, state := TransactionState.RUNNING,
          commands := (performList cmds fs).1, temp_dir := true }
        (performList cmds fs).2.1 fs rfl hsw_fs
      obtain ⟨hc1, hc2, hc3, hc4⟩ := exitTx_aborted_cleanup
        (Transaction.abort
          { safe := true, state := TransactionState.RUNNING,
            commands := (performList cmds fs).1, temp_dir := true }
          (performList cmds fs).2.1).tx
        (Transaction.abort
          { safe := true, state := TransactionState.RUNNING,
            commands := (performList cmds fs).1, temp_dir := true }
          (performList cmds fs).2.1).fs hb2 (by rw [hb3])
      exact ⟨hc1.trans hb1, hc2, hc3, hc4⟩
  · rw [hpe]
    exact exitTx_failure_aborts
      { safe := true, state := TransactionState.RUNNING,
        commands := (performList cmds fs).1, temp_dir := true }
      (performList cmds fs).2.1 PyErr.transactionAbort (by decide)
      (Or.inl rfl) rfl rfl hsw_err fs hsw_fs

/-- C1 counterexample: the restoration claim fails as universally stated.
In a safe-mode transaction over a filesystem where `A` is missing and `B`
contains `keep`, performing Move(A, B) (a reported no-op, since the source
is missing) and then hitting an unexpected failure ends, after the
automatic abort, with a file at `A` containing `keep` — not the
byte-for-byte pre-transaction state, where `A` did not exist.  (`B` is
restored and the terminal state is `ABORTED`, as claimed.) -/
theorem C1_abort_restores_cex :
    (runAbortedTx [Cmd.move "A" "B"] AbortMode.failure fsKeepB).fs "A" =
      some "keep" ∧
    fsKeepB "A" = none ∧
    (runAbortedTx [Cmd.move "A" "B"] AbortMode.failure fsKeepB).fs "B" =
      some "keep" ∧
    (runAbortedTx [Cmd.move "A" "B"] AbortMode.failure fsKeepB).tx.state =
      TransactionState.ABORTED := by
  decide

/-- The spec's Scenario A filesystem: `target.txt` contains `old`. -/
def fsOldTarget : FS := fun p => if p = "target.txt" then some "old" else none

theorem C1_abort_restores_amended_witness :
    cmdsWF [Cmd.write "target.txt" "new"] = true ∧
    goodMoves [Cmd.write "target.txt" "new"] fsOldTarget = true ∧
    ((runAbortedTx [Cmd.write "target.txt" "new"] AbortMode.failure
        fsOldTarget).fs = fsOldTarget ∧
      (runAbortedTx [Cmd.write "target.txt" "new"] AbortMode.failure
        fsOldTarget).tx.state = TransactionState.ABORTED ∧
      (runAbortedTx [Cmd.write "target.txt" "new"] AbortMode.failure
        fsOldTarget).dirs = 0 ∧
      (runAbortedTx [Cmd.write "target.txt" "new"] AbortMode.failure
        fsOldTarget).outcome = ExitOutcome.swallow) :=
  ⟨by decide, by decide,
    C1_abort_restores_amended [Cmd.write "target.txt" "new"] AbortMode.failure
      fsOldTarget (by decide) (by decide)⟩
